import Mathlib

/-!
Verification of the FlashCase spaced-repetition core (backend/app/services/srs.py
and backend/app/routers/study.py) against its design specification.

Modelling conventions:
* Python `int` is modelled as `ℤ`; Python `float` is modelled as `ℚ` (the SM-2
  constants 0.1, 0.08, 0.02, 1.3, 2.5 are read exactly, as the spec writes them).
* `datetime` timestamps are modelled as `ℤ` (seconds); `timedelta(days = n)`
  adds `86400 * n`.
* A `raise ValueError` is modelled as `none`; HTTP error responses are modelled
  by an explicit error type.
* The database is a pair of append-only lists (cards, study logs).  A `select`
  without `ORDER BY` returns rows in list order; `order_by(reviewed_at.desc()).first()`
  returns a row of maximal `reviewed_at`.
* Python `list.sort(key = ...)` is a stable sort, modelled by `List.insertionSort`
  (which is stable and sorts by the same key comparison).
* The two separate `datetime.utcnow()` reads inside `review_card` (one inside
  `calculate_due_date`, one for `reviewed_at`) are modelled by two explicit
  clock parameters `tDue` and `tNow`, in the order the code performs the reads.
-/

namespace FlashCase

/-- Python 3 `round` to an integer: round half to even (banker's rounding),
modelled on exact rationals.  `int(round(x))` in the source is this function. -/
def pyRound (x : ℚ) : ℤ :=
  if x - ⌊x⌋ < 1/2 then ⌊x⌋
  else if (1 : ℚ)/2 < x - ⌊x⌋ then ⌊x⌋ + 1
  else if ⌊x⌋ % 2 = 0 then ⌊x⌋ else ⌊x⌋ + 1

/-- Embedding of `calculate_sm2` from backend/app/services/srs.py.
Returns `none` exactly where the Python code raises `ValueError`. -/
def calculate_sm2 (quality repetitions : ℤ) (ease_factor : ℚ) (interval : ℤ) :
    Option (ℤ × ℚ × ℤ) :=
  if ¬ (0 ≤ quality ∧ quality ≤ 5) then none
  else
    let ef := if ease_factor < 1.3 then 1.3 else ease_factor
    let new_ease_factor :=
      ef + (0.1 - (5 - (quality : ℚ)) * (0.08 + (5 - (quality : ℚ)) * 0.02))
    let new_ease_factor :=
      if new_ease_factor < 1.3 then 1.3 else new_ease_factor
    if quality < 3 then
      some (0, new_ease_factor, 1)
    else
      let new_repetitions := repetitions + 1
      let new_interval :=
        if new_repetitions = 1 then (1 : ℤ)
        else if new_repetitions = 2 then (6 : ℤ)
        else pyRound ((interval : ℚ) * new_ease_factor)
      some (new_repetitions, new_ease_factor, new_interval)

/-- Modelled from the spec: the new ease factor described in §4.1 — the incoming
`easeFactor` clamped to the 1.3 floor, moved by the SM-2 delta, and re-clamped
to the 1.3 floor.  Used to compare `calculate_sm2` against the spec's formula. -/
def specNewEaseFactor (quality : ℤ) (ease_factor : ℚ) : ℚ :=
  max 1.3 (max 1.3 ease_factor +
    (0.1 - (5 - (quality : ℚ)) * (0.08 + (5 - (quality : ℚ)) * 0.02)))

/-- Embedding of `calculate_due_date` from backend/app/services/srs.py, with the
base date (`datetime.utcnow()` when the caller passes nothing) made explicit. -/
def calculate_due_date (interval : ℤ) (base_date : ℤ) : ℤ :=
  base_date + 86400 * interval

/-- Embedding of the `Card` model (backend/app/models/card.py), restricted to the
fields the study endpoints touch. -/
structure Card where
  id : ℤ
  deck_id : ℤ
  front : String
  back : String
deriving DecidableEq, Repr

/-- Embedding of the `StudyLog` model (backend/app/models/study_log.py). -/
structure StudyLog where
  user_id : ℤ
  card_id : ℤ
  reviewed_at : ℤ
  ease_factor : ℚ
  interval : ℤ
  repetitions : ℤ
  last_rating : Option ℤ
  due_date : ℤ
  next_review : ℤ
  created_at : ℤ
deriving DecidableEq, Repr

/-- The relational store seen by the study router: the card table and the
append-only study_log table. -/
structure DB where
  cards : List Card
  logs : List StudyLog
deriving DecidableEq, Repr

/-- Embedding of the query
`select(StudyLog).where(card_id).where(user_id).order_by(reviewed_at.desc()).first()`:
the stored log for the pair with maximal `reviewed_at` (later-inserted rows win
ties, matching an append-ordered scan). -/
def latestLog (logs : List StudyLog) (user_id card_id : ℤ) : Option StudyLog :=
  (logs.filter (fun l => l.card_id == card_id && l.user_id == user_id)).foldl
    (fun acc l =>
      match acc with
      | none => some l
      | some b => if b.reviewed_at ≤ l.reviewed_at then some l else some b)
    none

/-- Embedding of the `CardWithStudyInfo` response model of
backend/app/routers/study.py. -/
structure CardWithStudyInfo where
  id : ℤ
  deck_id : ℤ
  front : String
  back : String
  ease_factor : ℚ
  interval : ℤ
  repetitions : ℤ
  due_date : ℤ
deriving DecidableEq, Repr

/-- One iteration of the loop body of `get_study_session`: the study info the
card contributes to `due_cards`, or `none` when the card is filtered out. -/
def cardStudyInfo (logs : List StudyLog) (user_id now : ℤ) (card : Card) :
    Option CardWithStudyInfo :=
  match latestLog logs user_id card.id with
  | none =>
      some ⟨card.id, card.deck_id, card.front, card.back, 2.5, 0, 0, now⟩
  | some log =>
      if log.due_date ≤ now then
        some ⟨card.id, card.deck_id, card.front, card.back, log.ease_factor,
          log.interval, log.repetitions, log.due_date⟩
      else none

/-- The `due_cards` list built by the loop of `get_study_session`, before the
final sort and truncation. -/
def dueCards (db : DB) (deck_id user_id now : ℤ) : List CardWithStudyInfo :=
  (db.cards.filter (fun c => c.deck_id == deck_id)).filterMap
    (cardStudyInfo db.logs user_id now)

/-- The sort key of `due_cards.sort(key = lambda x: x.due_date)`. -/
def dueLe (a b : CardWithStudyInfo) : Prop :=
  a.due_date ≤ b.due_date

instance : DecidableRel dueLe := fun a b =>
  inferInstanceAs (Decidable (a.due_date ≤ b.due_date))

instance : IsTotal CardWithStudyInfo dueLe :=
  ⟨fun a b => le_total a.due_date b.due_date⟩

instance : IsTrans CardWithStudyInfo dueLe :=
  ⟨fun _ _ _ h h' => le_trans h h'⟩

/-- Python's stable `list.sort(key = lambda x: x.due_date)`, modelled by stable
insertion sort on the same key. -/
def sortByDue (l : List CardWithStudyInfo) : List CardWithStudyInfo :=
  List.insertionSort dueLe l

/-- Embedding of `get_study_session` from backend/app/routers/study.py, with the
single `datetime.utcnow()` read made an explicit parameter `now`. -/
def get_study_session (db : DB) (deck_id user_id : ℤ) (limit : ℕ) (now : ℤ) :
    List CardWithStudyInfo :=
  let cards := db.cards.filter (fun c => c.deck_id == deck_id)
  if cards.isEmpty then []
  else
    let due_cards := cards.filterMap (cardStudyInfo db.logs user_id now)
    (sortByDue due_cards).take limit

/-- The error responses `review_card` can produce.  `invalidQuality` is the
HTTP 400, `cardNotFound` the HTTP 404; `internalError` stands for an uncaught
`ValueError` escaping `calculate_sm2` (shown unreachable below). -/
inductive ReviewError where
  | invalidQuality
  | cardNotFound
  | internalError
deriving DecidableEq, Repr

/-- Embedding of the `ReviewResponse` model of backend/app/routers/study.py. -/
structure ReviewResponse where
  card_id : ℤ
  quality : ℤ
  new_ease_factor : ℚ
  new_interval : ℤ
  new_repetitions : ℤ
  next_due_date : ℤ
deriving DecidableEq, Repr

/-- The `(current_repetitions, current_ease_factor, current_interval)` triple
`review_card` feeds the SM-2 calculator: the latest log's values, or the
defaults `(0, 2.5, 0)` for a card the user never reviewed. -/
def priorState (db : DB) (user_id card_id : ℤ) : ℤ × ℚ × ℤ :=
  match latestLog db.logs user_id card_id with
  | some l => (l.repetitions, l.ease_factor, l.interval)
  | none => (0, 2.5, 0)

/-- Embedding of `review_card` from backend/app/routers/study.py.  The code reads
the clock twice: `tDue` is the `datetime.utcnow()` taken inside
`calculate_due_date(new_interval)`, and `tNow` is the later
`now = datetime.utcnow()` stored into `reviewed_at`/`created_at`.  Returns the
updated store together with the response or error, so that the claim that
failures leave history untouched is an actual statement about the result. -/
def review_card (db : DB) (card_id user_id quality tDue tNow : ℤ) :
    DB × Except ReviewError ReviewResponse :=
  if ¬ (0 ≤ quality ∧ quality ≤ 5) then
    (db, Except.error ReviewError.invalidQuality)
  else if ¬ (db.cards.any (fun c => c.id == card_id)) then
    (db, Except.error ReviewError.cardNotFound)
  else
    match calculate_sm2 quality (priorState db user_id card_id).1
        (priorState db user_id card_id).2.1 (priorState db user_id card_id).2.2 with
    | none => (db, Except.error ReviewError.internalError)
    | some (new_repetitions, new_ease_factor, new_interval) =>
      let next_due_date := calculate_due_date new_interval tDue
      let new_study_log : StudyLog :=
        ⟨user_id, card_id, tNow, new_ease_factor, new_interval, new_repetitions,
          some quality, next_due_date, next_due_date, tNow⟩
      (⟨db.cards, db.logs ++ [new_study_log]⟩,
        Except.ok ⟨card_id, quality, new_ease_factor, new_interval,
          new_repetitions, next_due_date⟩)

/-- One request to the review endpoint: its path/body arguments and the two
clock readings it will observe. -/
structure ReviewCall where
  card_id : ℤ
  user_id : ℤ
  quality : ℤ
  tDue : ℤ
  tNow : ℤ
deriving DecidableEq, Repr

/-- A sequence of `review_card` requests applied to the store in order. -/
def runReviews (db : DB) : List ReviewCall → DB
  | [] => db
  | c :: cs =>
      runReviews (review_card db c.card_id c.user_id c.quality c.tDue c.tNow).1 cs

/-! ### Basic lemmas about the SM-2 calculator -/

/-- Clamping written as in the source equals a `max` with the floor. -/
lemma clamp_eq_max (x : ℚ) : (if x < 1.3 then 1.3 else x) = max 1.3 x := by
  rcases lt_or_le x 1.3 with h | h
  · rw [if_pos h, max_eq_left h.le]
  · rw [if_neg (not_lt.mpr h), max_eq_right h]

/-- For a valid quality, `calculate_sm2` succeeds and its ease-factor component
is the spec's clamped update. -/
lemma sm2_eq (q r : ℤ) (ef : ℚ) (i : ℤ) (h0 : 0 ≤ q) (h5 : q ≤ 5) :
    calculate_sm2 q r ef i =
      if q < 3 then some (0, specNewEaseFactor q ef, 1)
      else some (r + 1, specNewEaseFactor q ef,
        if r + 1 = 1 then (1 : ℤ)
        else if r + 1 = 2 then (6 : ℤ)
        else pyRound ((i : ℚ) * specNewEaseFactor q ef)) := by
  unfold calculate_sm2 specNewEaseFactor
  rw [if_neg (not_not_intro ⟨h0, h5⟩)]
  simp only [clamp_eq_max]

/-- Whenever `calculate_sm2` returns a result, its ease factor is ≥ 1.3. -/
lemma sm2_ease_ge (q r : ℤ) (ef : ℚ) (i : ℤ) (out : ℤ × ℚ × ℤ)
    (h : calculate_sm2 q r ef i = some out) : 1.3 ≤ out.2.1 := by
  unfold calculate_sm2 at h
  by_cases hval : 0 ≤ q ∧ q ≤ 5
  · rw [if_neg (not_not_intro hval)] at h
    simp only [clamp_eq_max] at h
    split_ifs at h <;>
      · cases h
        simp only
        exact le_max_left _ _
  · rw [if_pos hval] at h
    cases h

/-- For a valid quality, the calculator always succeeds (no `ValueError`). -/
lemma sm2_isSome (q r : ℤ) (ef : ℚ) (i : ℤ) (h0 : 0 ≤ q) (h5 : q ≤ 5) :
    ∃ out, calculate_sm2 q r ef i = some out := by
  rw [sm2_eq q r ef i h0 h5]
  split_ifs <;> exact ⟨_, rfl⟩

/-! ### Shape lemmas about `review_card` -/

lemma review_card_invalid (db : DB) (cid uid q t1 t2 : ℤ)
    (h : ¬ (0 ≤ q ∧ q ≤ 5)) :
    review_card db cid uid q t1 t2 = (db, Except.error ReviewError.invalidQuality) := by
  unfold review_card
  rw [if_pos h]

lemma review_card_notFound (db : DB) (cid uid q t1 t2 : ℤ) (h : 0 ≤ q ∧ q ≤ 5)
    (hc : ¬ ((db.cards.any (fun c => c.id == cid)) = true)) :
    review_card db cid uid q t1 t2 = (db, Except.error ReviewError.cardNotFound) := by
  unfold review_card
  rw [if_neg (not_not_intro h), if_pos hc]

lemma review_card_ok (db : DB) (cid uid q t1 t2 : ℤ)
    (h0 : 0 ≤ q) (h5 : q ≤ 5) (hc : (db.cards.any (fun c => c.id == cid)) = true) :
    ∃ out : ℤ × ℚ × ℤ,
      calculate_sm2 q (priorState db uid cid).1 (priorState db uid cid).2.1
        (priorState db uid cid).2.2 = some out ∧
      review_card db cid uid q t1 t2 =
        (⟨db.cards, db.logs ++ [⟨uid, cid, t2, out.2.1, out.2.2, out.1, some q,
            calculate_due_date out.2.2 t1, calculate_due_date out.2.2 t1, t2⟩]⟩,
          Except.ok ⟨cid, q, out.2.1, out.2.2, out.1, calculate_due_date out.2.2 t1⟩) := by
  obtain ⟨⟨nr, ne, ni⟩, hout⟩ :=
    sm2_isSome q (priorState db uid cid).1 (priorState db uid cid).2.1
      (priorState db uid cid).2.2 h0 h5
  refine ⟨(nr, ne, ni), hout, ?_⟩
  unfold review_card
  rw [if_neg (not_not_intro ⟨h0, h5⟩), if_neg (not_not_intro hc), hout]

/-- Every log present after a `review_card` call was already present before, or
has an ease factor at the 1.3 floor or above. -/
lemma review_card_logs_mem (db : DB) (cid uid q t1 t2 : ℤ) :
    ∀ l ∈ (review_card db cid uid q t1 t2).1.logs,
      l ∈ db.logs ∨ (1.3 : ℚ) ≤ l.ease_factor := by
  intro l hl
  by_cases h0 : 0 ≤ q ∧ q ≤ 5
  · by_cases hc : (db.cards.any (fun c => c.id == cid)) = true
    · obtain ⟨out, hout, heq⟩ := review_card_ok db cid uid q t1 t2 h0.1 h0.2 hc
      rw [heq] at hl
      simp only [List.mem_append, List.mem_singleton] at hl
      rcases hl with h | h
      · exact Or.inl h
      · subst h
        exact Or.inr (sm2_ease_ge _ _ _ _ _ hout)
    · rw [review_card_notFound db cid uid q t1 t2 h0 hc] at hl
      exact Or.inl hl
  · rw [review_card_invalid db cid uid q t1 t2 h0] at hl
    exact Or.inl hl

/-- The 1.3 ease floor is preserved by any sequence of review requests. -/
lemma runReviews_ease_ge (calls : List ReviewCall) (db : DB)
    (h : ∀ l ∈ db.logs, (1.3 : ℚ) ≤ l.ease_factor) :
    ∀ l ∈ (runReviews db calls).logs, (1.3 : ℚ) ≤ l.ease_factor := by
  induction calls generalizing db with
  | nil => exact h
  | cons c cs ih =>
    refine ih _ (fun l hl => ?_)
    rcases review_card_logs_mem db c.card_id c.user_id c.quality c.tDue c.tNow l hl with
      h' | h'
    · exact h l h'
    · exact h'

/-! ### Lemmas about the due-card selector -/

/-- The loop body succeeds exactly on a never-reviewed card (synthesized info,
due now) or a reviewed card whose latest entry is due. -/
lemma cardStudyInfo_eq_some_iff (logs : List StudyLog) (uid now : ℤ) (c : Card)
    (info : CardWithStudyInfo) :
    cardStudyInfo logs uid now c = some info ↔
      ((latestLog logs uid c.id = none ∧
          info = ⟨c.id, c.deck_id, c.front, c.back, 2.5, 0, 0, now⟩) ∨
       (∃ l, latestLog logs uid c.id = some l ∧ l.due_date ≤ now ∧
          info = ⟨c.id, c.deck_id, c.front, c.back, l.ease_factor, l.interval,
            l.repetitions, l.due_date⟩)) := by
  unfold cardStudyInfo
  cases h : latestLog logs uid c.id with
  | none => simp [eq_comm]
  | some log =>
    dsimp only
    split_ifs with hd
    · simp only [Option.some.injEq, reduceCtorEq, false_and, false_or,
        Option.some.injEq]
      constructor
      · intro he
        exact ⟨log, rfl, hd, he.symm⟩
      · rintro ⟨l, hl, hle, rfl⟩
        cases hl
        rfl
    · constructor
      · intro he
        cases he
      · rintro (⟨hnone, -⟩ | ⟨l, hl, hle, -⟩)
        · cases hnone
        · cases hl
          exact absurd hle hd

lemma mem_dueCards_iff (db : DB) (deck uid now : ℤ) (info : CardWithStudyInfo) :
    info ∈ dueCards db deck uid now ↔
      ∃ c ∈ db.cards, c.deck_id = deck ∧
        cardStudyInfo db.logs uid now c = some info := by
  unfold dueCards
  simp only [List.mem_filterMap, List.mem_filter, beq_iff_eq, and_assoc]

/-- `get_study_session` is the sorted, truncated due-card list (the empty-deck
early return agrees with the general path). -/
lemma get_study_session_eq (db : DB) (deck uid : ℤ) (limit : ℕ) (now : ℤ) :
    get_study_session db deck uid limit now =
      (sortByDue (dueCards db deck uid now)).take limit := by
  unfold get_study_session dueCards
  by_cases h : (db.cards.filter (fun c => c.deck_id == deck)).isEmpty
  · rw [if_pos h]
    rw [List.isEmpty_iff] at h
    rw [h]
    simp [sortByDue]
  · rw [if_neg h]

/-! ### Claim theorems -/

/-- C1: for every quality in [0,5], any repetitions, interval and ease factor,
`calculate_sm2` succeeds and returns as its new ease factor the incoming
ease factor clamped to the 1.3 floor, moved by
`0.1 − (5−q)·(0.08 + (5−q)·0.02)`, and re-clamped to the 1.3 floor
(`specNewEaseFactor`). -/
theorem sm2_ease_factor_formula (q r : ℤ) (ef : ℚ) (i : ℤ)
    (h0 : 0 ≤ q) (h5 : q ≤ 5) :
    Option.map (fun out : ℤ × ℚ × ℤ => out.2.1) (calculate_sm2 q r ef i) =
      some (specNewEaseFactor q ef) := by
  rw [sm2_eq q r ef i h0 h5]
  split_ifs <;> rfl

/-- Witness for C1: at quality 0 from the default state the formula gives
2.5 − 0.8 = 1.7. -/
theorem sm2_ease_factor_formula_witness :
    Option.map (fun out : ℤ × ℚ × ℤ => out.2.1) (calculate_sm2 0 0 2.5 0) =
        some (specNewEaseFactor 0 2.5) ∧
      specNewEaseFactor 0 (2.5 : ℚ) = 1.7 :=
  ⟨sm2_ease_factor_formula 0 0 2.5 0 (by decide) (by decide),
    by norm_num [specNewEaseFactor, max_def]⟩

/-- C3: for every quality < 3 (with quality in [0,5]) and all prior values,
`calculate_sm2` returns repetitions 0 and interval 1, discarding the incoming
interval. -/
theorem sm2_failed_recall_resets (q r : ℤ) (ef : ℚ) (i : ℤ)
    (h0 : 0 ≤ q) (h3 : q < 3) :
    Option.map (fun out : ℤ × ℚ × ℤ => (out.1, out.2.2))
      (calculate_sm2 q r ef i) = some (0, 1) := by
  rw [sm2_eq q r ef i h0 (by omega), if_pos h3]
  rfl

/-- Witness for C3: the spec scenario `Advance(2, 5, 2.3, 30)` resets to
repetitions 0, interval 1. -/
theorem sm2_failed_recall_resets_witness :
    Option.map (fun out : ℤ × ℚ × ℤ => (out.1, out.2.2))
      (calculate_sm2 2 5 2.3 30) = some (0, 1) :=
  sm2_failed_recall_resets 2 5 2.3 30 (by decide) (by decide)

/-- C4: for every quality ≥ 3 (with quality in [0,5]) and nonnegative prior
repetitions, `calculate_sm2` increments repetitions, and yields interval 1 on
the first success, 6 on the second, and `pyRound (interval · EF')` (the
documented round-half-to-even rule applied to the incoming interval times the
new ease factor) from the third on. -/
theorem sm2_success_branch (q r : ℤ) (ef : ℚ) (i : ℤ)
    (h3 : 3 ≤ q) (h5 : q ≤ 5) (hr : 0 ≤ r) :
    calculate_sm2 q r ef i = some (r + 1, specNewEaseFactor q ef,
      if r + 1 = 1 then (1 : ℤ) else if r + 1 = 2 then (6 : ℤ)
      else pyRound ((i : ℚ) * specNewEaseFactor q ef)) ∧
    (3 ≤ r + 1 →
      (if r + 1 = 1 then (1 : ℤ) else if r + 1 = 2 then (6 : ℤ)
       else pyRound ((i : ℚ) * specNewEaseFactor q ef)) =
        pyRound ((i : ℚ) * specNewEaseFactor q ef)) := by
  constructor
  · rw [sm2_eq q r ef i (by omega) h5, if_neg (not_lt.mpr h3)]
  · intro h
    rw [if_neg (by omega), if_neg (by omega)]

/-- Witness for C4: a third successful repetition at quality 5 from ease 2.6
and interval 6 gives `(3, 2.7, round(6 · 2.7) = 16)`. -/
theorem sm2_success_branch_witness :
    calculate_sm2 5 2 2.6 6 = some (3, 2.7, 16) :=
  ((sm2_success_branch 5 2 2.6 6 (by decide) (by decide) (by decide)).1).trans
    (by norm_num [specNewEaseFactor, pyRound, max_def])

/-- C2: starting from a store with no review history, after any sequence of
review requests with valid qualities, every stored log has ease factor ≥ 1.3;
and `calculate_sm2` never returns an ease factor below 1.3. -/
theorem ease_factor_floor_invariant (db : DB) (calls : List ReviewCall)
    (hdb : db.logs = [])
    (hq : ∀ c ∈ calls, 0 ≤ c.quality ∧ c.quality ≤ 5) :
    (∀ q r ef i out, calculate_sm2 q r ef i = some out → (1.3 : ℚ) ≤ out.2.1) ∧
    ∀ l ∈ (runReviews db calls).logs, (1.3 : ℚ) ≤ l.ease_factor := by
  refine ⟨fun q r ef i out h => sm2_ease_ge q r ef i out h, ?_⟩
  refine runReviews_ease_ge calls db (fun l hl => ?_)
  rw [hdb] at hl
  cases hl

/-- Witness for C2: one perfect review of a fresh card stores ease 2.6 ≥ 1.3. -/
theorem ease_factor_floor_invariant_witness :
    (1.3 : ℚ) ≤ (StudyLog.mk 7 1 0 2.6 1 1 (some 5) 86400 86400 0).ease_factor :=
  (ease_factor_floor_invariant ⟨[⟨1, 1, "q", "a"⟩], []⟩ [⟨1, 7, 5, 0, 0⟩] rfl
      (by decide)).2
    (StudyLog.mk 7 1 0 2.6 1 1 (some 5) 86400 86400 0)
    (by norm_num [runReviews, review_card, priorState, latestLog, calculate_sm2,
      calculate_due_date])

/-! ### Concrete stores used by witnesses and counterexamples -/

/-- A store with one card in deck 1 and no review history. -/
def exDB : DB := ⟨[⟨1, 1, "q", "a"⟩], []⟩

/-- A store whose card table enumerates deck 1's cards with ids 2 then 1. -/
def tieDB : DB := ⟨[⟨2, 1, "q", "a"⟩, ⟨1, 1, "q", "a"⟩], []⟩

/-- A store with 21 never-reviewed cards (ids 1..21) in deck 1: one more than
the default session limit of 20. -/
def wideDB : DB :=
  ⟨[⟨1, 1, "q", "a"⟩, ⟨2, 1, "q", "a"⟩, ⟨3, 1, "q", "a"⟩, ⟨4, 1, "q", "a"⟩,
    ⟨5, 1, "q", "a"⟩, ⟨6, 1, "q", "a"⟩, ⟨7, 1, "q", "a"⟩, ⟨8, 1, "q", "a"⟩,
    ⟨9, 1, "q", "a"⟩, ⟨10, 1, "q", "a"⟩, ⟨11, 1, "q", "a"⟩, ⟨12, 1, "q", "a"⟩,
    ⟨13, 1, "q", "a"⟩, ⟨14, 1, "q", "a"⟩, ⟨15, 1, "q", "a"⟩, ⟨16, 1, "q", "a"⟩,
    ⟨17, 1, "q", "a"⟩, ⟨18, 1, "q", "a"⟩, ⟨19, 1, "q", "a"⟩, ⟨20, 1, "q", "a"⟩,
    ⟨21, 1, "q", "a"⟩], []⟩

/-- C5 (amended): the due set built before truncation contains exactly the
deck's never-reviewed cards (synthesized ease 2.5, interval 0, repetitions 0,
due at the query time) and the reviewed cards whose latest entry is due; the
session is that set sorted and cut to `limit`, so no returned card is due
strictly after the query time, and a never-reviewed card is always in the due
set (though the `limit` cut may drop it from the returned list). -/
theorem due_session_characterization (db : DB) (deck uid : ℤ) (limit : ℕ)
    (now : ℤ) :
    (∀ info, info ∈ dueCards db deck uid now ↔
      ∃ c ∈ db.cards, c.deck_id = deck ∧
        ((latestLog db.logs uid c.id = none ∧
            info = ⟨c.id, c.deck_id, c.front, c.back, 2.5, 0, 0, now⟩) ∨
         (∃ l, latestLog db.logs uid c.id = some l ∧ l.due_date ≤ now ∧
            info = ⟨c.id, c.deck_id, c.front, c.back, l.ease_factor, l.interval,
              l.repetitions, l.due_date⟩))) ∧
    get_study_session db deck uid limit now =
      (sortByDue (dueCards db deck uid now)).take limit ∧
    (∀ info ∈ get_study_session db deck uid limit now, info.due_date ≤ now) ∧
    (∀ c ∈ db.cards, c.deck_id = deck → latestLog db.logs uid c.id = none →
      (⟨c.id, c.deck_id, c.front, c.back, 2.5, 0, 0, now⟩ : CardWithStudyInfo) ∈
        dueCards db deck uid now) := by
  have hchar : ∀ info, info ∈ dueCards db deck uid now ↔
      ∃ c ∈ db.cards, c.deck_id = deck ∧
        ((latestLog db.logs uid c.id = none ∧
            info = ⟨c.id, c.deck_id, c.front, c.back, 2.5, 0, 0, now⟩) ∨
         (∃ l, latestLog db.logs uid c.id = some l ∧ l.due_date ≤ now ∧
            info = ⟨c.id, c.deck_id, c.front, c.back, l.ease_factor, l.interval,
              l.repetitions, l.due_date⟩)) := by
    intro info
    rw [mem_dueCards_iff]
    exact exists_congr fun c => and_congr_right fun _ =>
      and_congr_right fun _ => cardStudyInfo_eq_some_iff db.logs uid now c info
  refine ⟨hchar, get_study_session_eq db deck uid limit now, ?_, ?_⟩
  · intro info hmem
    rw [get_study_session_eq db deck uid limit now] at hmem
    have h1 : info ∈ sortByDue (dueCards db deck uid now) :=
      List.take_subset limit _ hmem
    have h2 : info ∈ dueCards db deck uid now :=
      (List.perm_insertionSort dueLe (dueCards db deck uid now)).subset h1
    rcases (hchar info).mp h2 with ⟨c, _, _, hcase⟩
    rcases hcase with ⟨-, rfl⟩ | ⟨l, -, hle, rfl⟩
    · exact le_refl now
    · exact hle
  · intro c hcm hdeck hnone
    exact (hchar _).mpr ⟨c, hcm, hdeck, Or.inl ⟨hnone, rfl⟩⟩

/-- Witness for C5 (amended): the never-reviewed card of `exDB` is in deck 1's
due set at time 0, with the synthesized study info. -/
theorem due_session_characterization_witness :
    (⟨1, 1, "q", "a", 2.5, 0, 0, 0⟩ : CardWithStudyInfo) ∈ dueCards exDB 1 7 0 :=
  (due_session_characterization exDB 1 7 20 0).2.2.2 ⟨1, 1, "q", "a"⟩
    (by decide) rfl rfl

/-- C5 counterexample: with 21 never-reviewed cards in the deck and the default
limit 20, card 21 is never reviewed yet absent from the returned session, so
the returned list does not contain every never-reviewed card of the deck. -/
theorem due_session_truncation_counterexample :
    (⟨21, 1, "q", "a"⟩ : Card) ∈ wideDB.cards ∧
    latestLog wideDB.logs 7 21 = none ∧
    (⟨21, 1, "q", "a", 2.5, 0, 0, 0⟩ : CardWithStudyInfo) ∉
      get_study_session wideDB 1 7 20 0 := by
  refine ⟨by decide, rfl, ?_⟩
  norm_num [wideDB, get_study_session, cardStudyInfo, latestLog, sortByDue,
    dueLe, List.insertionSort, List.orderedInsert, beq_iff_eq]

/-- C6 (amended): the study session has at most `limit` entries and is sorted
non-decreasing by due date; entries with equal due dates keep the card store's
enumeration order (the sort is stable), they are not re-ordered by card id. -/
theorem due_session_sorted_bounded (db : DB) (deck uid : ℤ) (limit : ℕ)
    (now : ℤ) :
    (get_study_session db deck uid limit now).length ≤ limit ∧
    List.Sorted dueLe (get_study_session db deck uid limit now) := by
  rw [get_study_session_eq db deck uid limit now]
  constructor
  · rw [List.length_take]
    exact min_le_left _ _
  · exact List.Pairwise.sublist (List.take_sublist _ _)
      (List.sorted_insertionSort dueLe (dueCards db deck uid now))

/-- Witness for C6 (amended), instantiated on the one-card store. -/
theorem due_session_sorted_bounded_witness :
    (get_study_session exDB 1 7 20 0).length ≤ 20 ∧
    List.Sorted dueLe (get_study_session exDB 1 7 20 0) :=
  due_session_sorted_bounded exDB 1 7 20 0

/-- C6 counterexample: when the card store enumerates deck 1 as ids 2 then 1
and both cards are due at the same instant, the session comes back in store
order `[2, 1]` — not ascending by card identifier among equal due dates. -/
theorem due_session_tiebreak_counterexample :
    (get_study_session tieDB 1 7 20 0).map CardWithStudyInfo.id = [2, 1] ∧
    (get_study_session tieDB 1 7 20 0).map CardWithStudyInfo.due_date = [0, 0] ∧
    ¬ List.Pairwise
        (fun a b : CardWithStudyInfo =>
          a.due_date < b.due_date ∨ (a.due_date = b.due_date ∧ a.id < b.id))
        (get_study_session tieDB 1 7 20 0) := by
  norm_num [tieDB, get_study_session, cardStudyInfo, latestLog, sortByDue,
    dueLe, List.insertionSort, List.orderedInsert, beq_iff_eq]

/-- C7 (amended): a successful review appends one entry whose `due_date` is
`tDue + interval` days, where `tDue` is the clock read taken for the due-date
computation — one read earlier than the `tNow` stored in `reviewed_at`.  Only
when the two reads coincide does `due_date = reviewed_at + interval` days hold. -/
theorem review_due_date_from_clock (db : DB) (cid uid q t1 t2 : ℤ)
    (h0 : 0 ≤ q) (h5 : q ≤ 5)
    (hc : (db.cards.any (fun c => c.id == cid)) = true) :
    ∃ log resp,
      review_card db cid uid q t1 t2 =
        (⟨db.cards, db.logs ++ [log]⟩, Except.ok resp) ∧
      log.reviewed_at = t2 ∧
      log.due_date = calculate_due_date log.interval t1 ∧
      (t1 = t2 → log.due_date = calculate_due_date log.interval log.reviewed_at) := by
  obtain ⟨out, hout, heq⟩ := review_card_ok db cid uid q t1 t2 h0 h5 hc
  refine ⟨_, _, heq, rfl, rfl, fun h => ?_⟩
  dsimp only
  rw [h]

/-- Witness for C7 (amended): reviewing the fresh card of `exDB` at quality 5
with both clock reads at time 3. -/
theorem review_due_date_from_clock_witness :
    ∃ log resp,
      review_card exDB 1 7 5 3 3 =
        (⟨exDB.cards, exDB.logs ++ [log]⟩, Except.ok resp) ∧
      log.reviewed_at = 3 ∧
      log.due_date = calculate_due_date log.interval 3 ∧
      ((3 : ℤ) = 3 → log.due_date = calculate_due_date log.interval log.reviewed_at) :=
  review_due_date_from_clock exDB 1 7 5 3 3 (by decide) (by decide) (by decide)

/-- C7 counterexample: with the two clock reads at 0 and 1 (the due-date read
strictly earlier, as the code performs them), the appended entry has
`due_date = 86400` but `reviewed_at + 86400 · interval = 86401`, so
`due_date = reviewed_at + interval` days fails. -/
theorem review_due_date_counterexample :
    (review_card exDB 1 7 5 0 1).1.logs =
      [⟨7, 1, 1, 2.6, 1, 1, some 5, 86400, 86400, 1⟩] ∧
    StudyLog.due_date ⟨7, 1, 1, 2.6, 1, 1, some 5, 86400, 86400, 1⟩ ≠
      StudyLog.reviewed_at ⟨7, 1, 1, 2.6, 1, 1, some 5, 86400, 86400, 1⟩ +
        86400 * StudyLog.interval ⟨7, 1, 1, 2.6, 1, 1, some 5, 86400, 86400, 1⟩ := by
  constructor
  · norm_num [exDB, review_card, priorState, latestLog, calculate_sm2,
      calculate_due_date]
  · decide

/-- C8: `review_card` fails with `invalidQuality` exactly when the quality is
outside [0,5] (independently of the store), fails with `cardNotFound` exactly
when the quality is valid but no card has the requested id, and every failure
leaves the store — in particular the review history — unchanged. -/
theorem review_card_error_cases (db : DB) (cid uid q t1 t2 : ℤ) :
    ((review_card db cid uid q t1 t2).2 = Except.error ReviewError.invalidQuality ↔
      ¬ (0 ≤ q ∧ q ≤ 5)) ∧
    ((review_card db cid uid q t1 t2).2 = Except.error ReviewError.cardNotFound ↔
      ((0 ≤ q ∧ q ≤ 5) ∧ ∀ c ∈ db.cards, c.id ≠ cid)) ∧
    (∀ e, (review_card db cid uid q t1 t2).2 = Except.error e →
      (review_card db cid uid q t1 t2).1 = db) := by
  by_cases h0 : 0 ≤ q ∧ q ≤ 5
  · by_cases hc : (db.cards.any (fun c => c.id == cid)) = true
    · obtain ⟨out, hout, heq⟩ := review_card_ok db cid uid q t1 t2 h0.1 h0.2 hc
      rw [heq]
      have hcard : ∃ c ∈ db.cards, c.id = cid := by
        obtain ⟨c, hcm, hcc⟩ := List.any_eq_true.mp hc
        exact ⟨c, hcm, beq_iff_eq.mp hcc⟩
      refine ⟨?_, ?_, ?_⟩
      · simp [h0]
      · constructor
        · intro hfalse
          cases hfalse
        · rintro ⟨-, hall⟩
          obtain ⟨c, hcm, hcc⟩ := hcard
          exact absurd hcc (hall c hcm)
      · intro e he
        cases he
    · rw [review_card_notFound db cid uid q t1 t2 h0 hc]
      have hall : ∀ c ∈ db.cards, c.id ≠ cid := by
        intro c hcm hEq
        exact hc (List.any_eq_true.mpr ⟨c, hcm, beq_iff_eq.mpr hEq⟩)
      refine ⟨?_, ?_, fun e _ => rfl⟩
      · simp [h0]
      · simpa [h0] using hall
  · rw [review_card_invalid db cid uid q t1 t2 h0]
    refine ⟨?_, ?_, fun e _ => rfl⟩
    · simp [h0]
    · simp [h0]

/-- Witness for C8: quality 9 is rejected as `invalidQuality` and the one-card
store is left unchanged. -/
theorem review_card_error_cases_witness :
    (review_card exDB 1 7 9 0 0).2 = Except.error ReviewError.invalidQuality ∧
    (review_card exDB 1 7 9 0 0).1 = exDB := by
  have h := review_card_error_cases exDB 1 7 9 0 0
  have he : (review_card exDB 1 7 9 0 0).2 =
      Except.error ReviewError.invalidQuality := h.1.mpr (by decide)
  exact ⟨he, h.2.2 ReviewError.invalidQuality he⟩

/-- C10: for a deck id owning no cards in the store (in particular a deck id
that does not exist), the study session is the empty list — deck existence is
never checked and no error is possible on this path. -/
theorem session_unknown_deck (db : DB) (deck uid : ℤ) (limit : ℕ) (now : ℤ)
    (h : ∀ c ∈ db.cards, c.deck_id ≠ deck) :
    get_study_session db deck uid limit now = [] := by
  rw [get_study_session_eq db deck uid limit now]
  have hf : db.cards.filter (fun c => c.deck_id == deck) = [] := by
    rw [List.filter_eq_nil_iff]
    intro c hcm
    simp [h c hcm]
  unfold dueCards
  rw [hf]
  simp [sortByDue]

/-- Witness for C10: deck 99 has no cards in the one-card store, and the
session for it is empty. -/
theorem session_unknown_deck_witness :
    get_study_session exDB 99 7 20 0 = [] :=
  session_unknown_deck exDB 99 7 20 0 (by decide)

end FlashCase
